import Mathlib

/-!
# Verification of the quiz-session engine (`app.py`)

Shallow embedding of the session state machine, question selector and
scoring/stats engine of the Streamlit quiz application.  Python dicts
holding questions become a `Question` structure; the per-user progress
record becomes a `Progress` structure whose four id collections are
`Finset Nat` (Python `set`) and whose `confidence`/`stats` dicts become
functions to `Option`.  Randomness (`random.sample`, `random.shuffle`)
is modelled by explicit parameters constrained by the hypotheses those
library calls guarantee (distinct in-range indices; a permutation of the
shuffled list).  Fallible computations (Python exceptions) return
`Option`/`Except`.
-/

set_option autoImplicit false

namespace QuizApp

/-- A catalog question, as stored in `questions.json` and loaded by
`load_questions` (app.py lines 50–55). -/
structure Question where
  id : Nat
  system : String
  question : String
  options : List String
  answer : String
  explanation : String
deriving DecidableEq, Repr

/-- A fixed default question used to totalise list indexing
(`pool.getD i defaultQ`); all theorems supply in-range indices. -/
def defaultQ : Question :=
  { id := 0, system := "", question := "", options := [], answer := "", explanation := "" }

/-- One entry of the per-question `stats` dict; `save_stats`
(app.py lines 123–132) creates it via `setdefault` with attempts,
correct and incorrect all 0 and no `last_seen` key. -/
structure QStat where
  attempts : Nat
  correct : Nat
  incorrect : Nat
  last_seen : Option Nat
deriving DecidableEq, Repr

/-- The `setdefault` default value in `save_stats`. -/
def QStat.init : QStat :=
  { attempts := 0, correct := 0, incorrect := 0, last_seen := none }

/-- The per-user progress record (`progress` in app.py).  The four id
lists become sets after login (app.py lines 100–101), so they are
modelled as `Finset Nat`; `confidence` and `stats` are dicts keyed by
question id. -/
structure Progress where
  attempted : Finset Nat
  correct : Finset Nat
  incorrect : Finset Nat
  marked : Finset Nat
  confidence : Nat → Option String
  stats : Nat → Option QStat

/-- The empty progress record returned by `load_user_data` when the
user has no saved file (app.py lines 36–43). -/
def defaultUserData : Progress :=
  { attempted := ∅, correct := ∅, incorrect := ∅, marked := ∅,
    confidence := fun _ => none, stats := fun _ => none }

/-- `save_stats(qid, correct)` (app.py lines 123–132): upsert the stats
entry for `qid`, incrementing `attempts` and the counter selected by
`correct`, and stamping `last_seen` with the current time `tnow`. -/
def save_stats (p : Progress) (qid : Nat) (correct : Bool) (tnow : Nat) : Progress :=
  let s := (p.stats qid).getD QStat.init
  { p with stats := fun k =>
      if k = qid then
        some { attempts := s.attempts + 1,
               correct := s.correct + (if correct then 1 else 0),
               incorrect := s.incorrect + (if correct then 0 else 1),
               last_seen := some tnow }
      else p.stats k }

/-- The progress mutation performed by the Submit / Update Answer
handler (app.py lines 258–267): add to `attempted`, discard from both
`correct` and `incorrect`, add to the one selected by the correctness
flag, then update stats via `save_stats`. -/
def record (p : Progress) (qid : Nat) (correct : Bool) (tnow : Nat) : Progress :=
  let p1 := { p with attempted := insert qid p.attempted,
                     correct := p.correct.erase qid,
                     incorrect := p.incorrect.erase qid }
  let p2 :=
    if correct then { p1 with correct := insert qid p1.correct }
    else { p1 with incorrect := insert qid p1.incorrect }
  save_stats p2 qid correct tnow

/-- The status-filter predicate `allow` (app.py lines 175–184): build
one boolean check per active filter and OR them; with no active filter
every question passes. -/
def allow (filters : List String) (p : Progress) (q : Question) : Bool :=
  let checks : List Bool :=
    (if "unused" ∈ filters then [decide (q.id ∉ p.attempted)] else []) ++
    (if "incorrect" ∈ filters then [decide (q.id ∈ p.incorrect)] else []) ++
    (if "marked" ∈ filters then [decide (q.id ∈ p.marked)] else [])
  if filters.isEmpty then true else checks.any id

/-- System restriction of the pool (app.py lines 170–173). -/
def systemPool (questions : List Question) (selected_systems : List String) : List Question :=
  if selected_systems.isEmpty then questions
  else questions.filter (fun q => decide (q.system ∈ selected_systems))

/-- The qualifying pool: system restriction followed by the status
filters (app.py lines 170–186). -/
def filteredPool (questions : List Question) (selected_systems filters : List String)
    (p : Progress) : List Question :=
  (systemPool questions selected_systems).filter (allow filters p)

/-- The ephemeral session state stored in `st.session_state.state`
(app.py lines 104–115).  Timestamps are integers (`time.time()` values);
`answers` is the per-session dict of submitted answers keyed by
question id. -/
structure SessionState where
  started : Bool
  start_time : Option Int
  current_index : Nat
  session_questions : List Question
  answers : Nat → Option String
  show_feedback : Bool
  session_over : Bool
  mode : String
  time_limit : Option Int

/-- The initial session state (app.py lines 104–115). -/
def initState : SessionState :=
  { started := false, start_time := none, current_index := 0, session_questions := [],
    answers := fun _ => none, show_feedback := false, session_over := false,
    mode := "reading", time_limit := none }

/-- The clone-and-shuffle step of session start (app.py lines 192–194),
as seen by the new session: `pairs` is the list of `(pool index of the
drawn question, the options list after the in-place shuffle)` — one
pair per drawn question, produced by `random.sample` and
`random.shuffle`.  Each session question is the shallow `q.copy()` of
the pool question at the drawn index, with its `options` being the
shuffled list. -/
def sessionQuestionsOf (pool : List Question) (pairs : List (Nat × List String)) :
    List Question :=
  pairs.map (fun pr => { pool.getD pr.1 defaultQ with options := pr.2 })

/-- The catalog as it reads AFTER session start (heap view of entry
`j`).  Because `q.copy()` at app.py line 192 is a SHALLOW dict copy,
the clone's `"options"` key aliases the catalog question's options
list, and `random.shuffle(q["options"])` at line 194 therefore reorders
the catalog entry's own options list in place: a drawn entry reads back
with the shuffled options, an undrawn entry is untouched. -/
def catalogAfter (pool : List Question) (pairs : List (Nat × List String)) (j : Nat) :
    Question :=
  match pairs.find? (fun pr => pr.1 == j) with
  | some pr => { pool.getD j defaultQ with options := pr.2 }
  | none => pool.getD j defaultQ

/-- Session start (app.py lines 188–206): fail with the
"Not enough questions" warning when the qualifying pool is smaller than
the requested count (`st.stop()` before any state change), otherwise
build the fresh session state.  `idx`/`shuffles` are the outcomes of
`random.sample` and of the per-question `random.shuffle`. -/
def startSession (pool : List Question) (num_q : Nat) (mode : String)
    (idx : List Nat) (shuffles : List (List String)) (now : Int) :
    Except String SessionState :=
  if pool.length < num_q then
    Except.error "Not enough questions for these filters."
  else
    Except.ok
      { started := true, start_time := some now, current_index := 0,
        session_questions := sessionQuestionsOf pool (idx.zip shuffles),
        answers := fun _ => none, show_feedback := false, session_over := false,
        mode := mode,
        time_limit := if mode = "test" then some ((90 * num_q : Nat) : Int) else none }

/-- Boolean success test for `startSession` results. -/
def startedOk : Except String SessionState → Bool
  | Except.ok _ => true
  | Except.error _ => false

/-- The question currently displayed (app.py line 240). -/
def currentQuestion (st : SessionState) : Question :=
  st.session_questions.getD st.current_index defaultQ

/-- The summary score (app.py lines 222–225): how many session
questions have their recorded answer equal to the question's answer
(`answers.get(qid)` is `None` for unanswered questions and never equals
the answer string). -/
def summaryScore (st : SessionState) : Nat :=
  st.session_questions.countP (fun q => st.answers q.id == some q.answer)

/-- The summary total (app.py line 226). -/
def summaryTotal (st : SessionState) : Nat :=
  st.session_questions.length

/-- The summary percentage `correct/total*100` (app.py line 228).
Python raises `ZeroDivisionError` when `total == 0`; that exception is
modelled as `none`. -/
def summaryPercent (st : SessionState) : Option Rat :=
  if summaryTotal st = 0 then none
  else some ((summaryScore st : Rat) / (summaryTotal st : Rat) * 100)

/-- User-interface events driving one rerun of the script.  `start`
carries the sidebar inputs (count from the slider, systems, mode,
filters) plus the randomness outcomes; `submit` carries the index of
the option picked in the `st.radio` control; `timer` and `submit`
carry the current wall-clock time. -/
inductive Event where
  | start (num_q : Nat) (systems : List String) (mode : String) (filters : List String)
      (idx : List Nat) (shuffles : List (List String)) (now : Int)
  | timer (now : Int)
  | submit (i : Nat) (tnow : Nat)
  | setConfidence (lvl : String)
  | setMarked (b : Bool)
  | next
  | newSession
  | logout

/-- Contracts the UI and the `random` library guarantee for an event:
the slider (app.py line 154) bounds the requested count to [5, 100],
`random.sample(pool, k)` returns exactly `k` elements, and the start
loop shuffles each drawn question once. -/
def validEvent : Event → Bool
  | Event.start num_q _ _ _ idx shuffles _ =>
      decide (5 ≤ num_q) && decide (num_q ≤ 100) &&
      decide (idx.length = num_q) && decide (shuffles.length = num_q)
  | _ => true

/-- One rerun of the script under a single user action, over the pair
(session state, progress record).  Guards mirror the rendering
conditions: the start block runs only when no session is started
(app.py line 169), the timer block when started and not over (line
209), the question view when started and (because the summary block
ends with `st.stop()`) not over (line 239), the feedback controls when
additionally `show_feedback` (line 271), and the New Session button
only on the summary page (line 232). -/
def appStep (questions : List Question) (s : SessionState × Progress) (e : Event) :
    SessionState × Progress :=
  match s, e with
  | (st, p), Event.start num_q systems mode filters idx shuffles now =>
      if st.started then (st, p)
      else
        match startSession (filteredPool questions systems filters p) num_q mode idx shuffles now with
        | Except.error _ => (st, p)
        | Except.ok st2 => (st2, p)
  | (st, p), Event.timer now =>
      if st.started && !st.session_over then
        if st.mode = "test" then
          match st.time_limit, st.start_time with
          | some tl, some t0 =>
              if max 0 (tl - (now - t0)) = 0 then ({ st with session_over := true }, p)
              else (st, p)
          | _, _ => (st, p)
        else (st, p)
      else (st, p)
  | (st, p), Event.submit i tnow =>
      if st.started && !st.session_over then
        let q := currentQuestion st
        let choice := q.options.getD i ""
        ({ st with answers := fun k => if k = q.id then some choice else st.answers k,
                   show_feedback := true },
         record p q.id (decide (choice = q.answer)) tnow)
      else (st, p)
  | (st, p), Event.setConfidence lvl =>
      if st.started && !st.session_over && st.show_feedback then
        let q := currentQuestion st
        (st, { p with confidence := fun k => if k = q.id then some lvl else p.confidence k })
      else (st, p)
  | (st, p), Event.setMarked b =>
      if st.started && !st.session_over && st.show_feedback then
        let q := currentQuestion st
        (st, if b then { p with marked := insert q.id p.marked }
             else { p with marked := p.marked.erase q.id })
      else (st, p)
  | (st, p), Event.next =>
      if st.started && !st.session_over && st.show_feedback then
        let i2 := st.current_index + 1
        ({ st with current_index := i2, show_feedback := false,
                   session_over := decide (st.session_questions.length ≤ i2) || st.session_over },
         p)
      else (st, p)
  | (st, p), Event.newSession =>
      if st.session_over then ({ st with started := false }, p) else (st, p)
  | (_, p), Event.logout => (initState, p)

/-! ## Theorems -/

/-- C4: the session selector applies status filters with OR semantics:
with at least one active filter a question qualifies iff it satisfies
at least one active predicate (`unused` iff not attempted, `incorrect`
iff in the incorrect set, `marked` iff in the marked set); with no
active filter every question of the system-restricted pool qualifies
(the `filters = []` disjunct makes `allow` constantly true). -/
theorem C4_filter_or_semantics (filters : List String) (p : Progress) (q : Question) :
    allow filters p q = true ↔
      (filters = [] ∨
       ("unused" ∈ filters ∧ q.id ∉ p.attempted) ∨
       ("incorrect" ∈ filters ∧ q.id ∈ p.incorrect) ∨
       ("marked" ∈ filters ∧ q.id ∈ p.marked)) := by
  unfold allow
  by_cases hf : filters.isEmpty
  · simp [hf, List.isEmpty_iff.mp hf]
  · have hne : filters ≠ [] := by simpa [List.isEmpty_iff] using hf
    by_cases h1 : "unused" ∈ filters <;>
    by_cases h2 : "incorrect" ∈ filters <;>
    by_cases h3 : "marked" ∈ filters <;>
      simp [hf, hne, h1, h2, h3]

/-- C2: each answer submission with question id `qid` and correctness
flag `c` adds `qid` to `attempted`, removes it from both `correct` and
`incorrect` and adds it to exactly the one selected by `c` (membership
after the update is equivalent to the flag), and upserts `stats[qid]`
with `attempts` incremented by 1, the matching counter incremented by 1
and `last_seen` set; in particular a correct then an incorrect
submission for a previously unseen `qid` ends with `qid` in
`incorrect`, not in `correct`, and `stats[qid].attempts = 2`. -/
theorem C2_record_update (p : Progress) (qid : Nat) (c : Bool) (tnow t1 t2 : Nat) :
    (qid ∈ (record p qid c tnow).attempted
      ∧ (qid ∈ (record p qid c tnow).correct ↔ c = true)
      ∧ (qid ∈ (record p qid c tnow).incorrect ↔ c = false)
      ∧ (record p qid c tnow).stats qid =
          some { attempts := ((p.stats qid).getD QStat.init).attempts + 1,
                 correct := ((p.stats qid).getD QStat.init).correct + (if c then 1 else 0),
                 incorrect := ((p.stats qid).getD QStat.init).incorrect + (if c then 0 else 1),
                 last_seen := some tnow })
    ∧ (p.stats qid = none →
        qid ∈ (record (record p qid true t1) qid false t2).incorrect
        ∧ qid ∉ (record (record p qid true t1) qid false t2).correct
        ∧ ((record (record p qid true t1) qid false t2).stats qid).map QStat.attempts
            = some 2) := by
  constructor
  · unfold record save_stats
    cases c <;> simp [Finset.mem_insert, Finset.mem_erase, QStat.init]
  · intro h
    unfold record save_stats
    simp [h, Finset.mem_insert, Finset.mem_erase, QStat.init]

/-- C2 witness: the theorem applied at a fresh question id 7 in the
empty progress record. -/
theorem C2_record_update_witness :
    7 ∈ (record defaultUserData 7 true 0).attempted
    ∧ (7 ∈ (record (record defaultUserData 7 true 1) 7 false 2).incorrect
        ∧ 7 ∉ (record (record defaultUserData 7 true 1) 7 false 2).correct
        ∧ ((record (record defaultUserData 7 true 1) 7 false 2).stats 7).map QStat.attempts
            = some 2) :=
  ⟨(C2_record_update defaultUserData 7 true 0 1 2).1.1,
   (C2_record_update defaultUserData 7 true 0 1 2).2 rfl⟩

/-- The progress-record mutations reachable through the UI: an answer
submission (app.py lines 258–267), a mark-for-review toggle (lines
283–286) and a confidence selection (lines 280–281). -/
inductive ProgOp where
  | submit (qid : Nat) (c : Bool) (tnow : Nat)
  | setMarked (qid : Nat) (b : Bool)
  | setConfidence (qid : Nat) (lvl : String)

/-- Effect of one progress-record mutation. -/
def applyOp (p : Progress) : ProgOp → Progress
  | ProgOp.submit qid c tnow => record p qid c tnow
  | ProgOp.setMarked qid true => { p with marked := insert qid p.marked }
  | ProgOp.setMarked qid false => { p with marked := p.marked.erase qid }
  | ProgOp.setConfidence qid lvl =>
      { p with confidence := fun k => if k = qid then some lvl else p.confidence k }

/-- The progress-record invariant of the spec: no id is in both
`correct` and `incorrect`, and `attempted` contains their union. -/
def ProgressInv (p : Progress) : Prop :=
  (∀ x, ¬(x ∈ p.correct ∧ x ∈ p.incorrect)) ∧ p.correct ∪ p.incorrect ⊆ p.attempted

theorem progressInv_default : ProgressInv defaultUserData := by
  constructor
  · intro x hx
    simpa [defaultUserData] using hx.1
  · simp [defaultUserData]

theorem progressInv_applyOp (p : Progress) (o : ProgOp) (h : ProgressInv p) :
    ProgressInv (applyOp p o) := by
  obtain ⟨hdisj, hsub⟩ := h
  cases o with
  | submit qid c tnow =>
      cases c with
      | false =>
          have hcor : (applyOp p (ProgOp.submit qid false tnow)).correct
              = p.correct.erase qid := by
            simp [applyOp, record, save_stats]
          have hinc : (applyOp p (ProgOp.submit qid false tnow)).incorrect
              = insert qid (p.incorrect.erase qid) := by
            simp [applyOp, record, save_stats]
          have hatt : (applyOp p (ProgOp.submit qid false tnow)).attempted
              = insert qid p.attempted := by
            simp [applyOp, record, save_stats]
          constructor
          · intro x hx
            rw [hcor, hinc] at hx
            rcases hx with ⟨h1, h2⟩
            rw [Finset.mem_erase] at h1
            rcases Finset.mem_insert.mp h2 with h2 | h2
            · exact h1.1 h2
            · exact hdisj x ⟨h1.2, (Finset.mem_erase.mp h2).2⟩
          · intro x hx
            rw [Finset.mem_union, hcor, hinc, Finset.mem_erase, Finset.mem_insert,
              Finset.mem_erase] at hx
            rw [hatt, Finset.mem_insert]
            rcases hx with ⟨hne, hc2⟩ | (heq | ⟨hne, hi3⟩)
            · exact Or.inr (hsub (Finset.mem_union_left _ hc2))
            · exact Or.inl heq
            · exact Or.inr (hsub (Finset.mem_union_right _ hi3))
      | true =>
          have hcor : (applyOp p (ProgOp.submit qid true tnow)).correct
              = insert qid (p.correct.erase qid) := by
            simp [applyOp, record, save_stats]
          have hinc : (applyOp p (ProgOp.submit qid true tnow)).incorrect
              = p.incorrect.erase qid := by
            simp [applyOp, record, save_stats]
          have hatt : (applyOp p (ProgOp.submit qid true tnow)).attempted
              = insert qid p.attempted := by
            simp [applyOp, record, save_stats]
          constructor
          · intro x hx
            rw [hcor, hinc] at hx
            rcases hx with ⟨h1, h2⟩
            rw [Finset.mem_erase] at h2
            rcases Finset.mem_insert.mp h1 with h1 | h1
            · exact h2.1 h1
            · exact hdisj x ⟨(Finset.mem_erase.mp h1).2, h2.2⟩
          · intro x hx
            rw [Finset.mem_union, hcor, hinc, Finset.mem_insert, Finset.mem_erase,
              Finset.mem_erase] at hx
            rw [hatt, Finset.mem_insert]
            rcases hx with (heq | ⟨hne, hc2⟩) | ⟨hne, hi3⟩
            · exact Or.inl heq
            · exact Or.inr (hsub (Finset.mem_union_left _ hc2))
            · exact Or.inr (hsub (Finset.mem_union_right _ hi3))
  | setMarked qid b =>
      cases b <;> exact ⟨hdisj, hsub⟩
  | setConfidence qid lvl =>
      exact ⟨hdisj, hsub⟩

theorem progressInv_foldl (ops : List ProgOp) (p : Progress) (h : ProgressInv p) :
    ProgressInv (ops.foldl applyOp p) := by
  induction ops generalizing p with
  | nil => exact h
  | cons o rest ih => exact ih (applyOp p o) (progressInv_applyOp p o h)

/-- C3: starting from the empty progress record, any sequence of answer
submissions, mark toggles and confidence selections leaves every
question id in at most one of `correct`/`incorrect`, with `attempted` a
superset of their union. -/
theorem C3_progress_invariant (ops : List ProgOp) :
    (∀ x, ¬(x ∈ (ops.foldl applyOp defaultUserData).correct
            ∧ x ∈ (ops.foldl applyOp defaultUserData).incorrect))
    ∧ (ops.foldl applyOp defaultUserData).correct ∪ (ops.foldl applyOp defaultUserData).incorrect
        ⊆ (ops.foldl applyOp defaultUserData).attempted :=
  progressInv_foldl ops defaultUserData progressInv_default

/-- A one-question catalog used to exhibit the shallow-copy aliasing of
session creation. -/
def catC1 : List Question :=
  [{ id := 1, system := "Cardio", question := "Q1?", options := ["A", "B"],
     answer := "A", explanation := "E1" }]

/-- C1 counterexample: drawing the single catalog question and
shuffling its options to `["B", "A"]` (a legitimate `random.shuffle`
outcome, witnessed by the permutation conjunct) leaves the catalog
entry itself with reordered options — `q.copy()` at app.py line 192 is
a shallow copy, so `random.shuffle(q["options"])` at line 194 reorders
the catalog question's own options list, refuting "its options sequence
(content and order) is unchanged by session creation". -/
theorem C1_counterexample :
    List.Perm ["B", "A"] (catC1.getD 0 defaultQ).options
    ∧ (catalogAfter catC1 [(0, ["B", "A"])] 0).options ≠ (catC1.getD 0 defaultQ).options := by
  constructor
  · decide
  · decide

/-- C1 (amended): for every question of the catalog, session creation
preserves the CONTENT of its options (the post-state options are a
permutation of the originals) together with its id and answer, and
every undrawn question is entirely unchanged; each Session Question is
the clone of its drawn source with options a permutation of the
source's options, still containing the answer whenever the source
satisfied `answer ∈ options` — but a drawn question's options ORDER in
the shared catalog does change, because the clone is shallow. -/
theorem C1_amended (pool : List Question) (pairs : List (Nat × List String))
    (hperm : ∀ pr ∈ pairs, List.Perm pr.2 (pool.getD pr.1 defaultQ).options) :
    (∀ j, List.Perm (catalogAfter pool pairs j).options (pool.getD j defaultQ).options
        ∧ (catalogAfter pool pairs j).id = (pool.getD j defaultQ).id
        ∧ (catalogAfter pool pairs j).answer = (pool.getD j defaultQ).answer)
    ∧ (∀ j, (∀ pr ∈ pairs, pr.1 ≠ j) → catalogAfter pool pairs j = pool.getD j defaultQ)
    ∧ (∀ sq ∈ sessionQuestionsOf pool pairs, ∃ pr ∈ pairs,
        sq = { pool.getD pr.1 defaultQ with options := pr.2 }
        ∧ List.Perm sq.options (pool.getD pr.1 defaultQ).options
        ∧ ((pool.getD pr.1 defaultQ).answer ∈ (pool.getD pr.1 defaultQ).options →
            sq.answer ∈ sq.options)) := by
  refine ⟨?_, ?_, ?_⟩
  · intro j
    unfold catalogAfter
    cases hfind : pairs.find? (fun pr => pr.1 == j) with
    | none => exact ⟨List.Perm.refl _, rfl, rfl⟩
    | some pr =>
        have hmem := List.mem_of_find?_eq_some hfind
        have hj : pr.1 = j := by
          have hps := List.find?_some hfind
          simpa using hps
        refine ⟨?_, rfl, rfl⟩
        simpa [hj] using hperm pr hmem
  · intro j hnone
    unfold catalogAfter
    have hfn : pairs.find? (fun pr => pr.1 == j) = none := by
      rw [List.find?_eq_none]
      intro pr hpr
      simpa using hnone pr hpr
    rw [hfn]
  · intro sq hsq
    rcases List.mem_map.mp hsq with ⟨pr, hpr, rfl⟩
    refine ⟨pr, hpr, rfl, ?_, ?_⟩
    · simpa using hperm pr hpr
    · intro hans
      have hp := hperm pr hpr
      simpa using (hp.mem_iff).mpr hans

/-- C1 witness: the amended theorem applied to the concrete catalog and
shuffle outcome of the counterexample. -/
theorem C1_amended_witness :
    List.Perm (catalogAfter catC1 [(0, ["B", "A"])] 0).options (catC1.getD 0 defaultQ).options :=
  ((C1_amended catC1 [(0, ["B", "A"])] (by decide)).1 0).1

/-- C5: session start fails with the insufficient-pool warning exactly
when the qualifying pool is strictly smaller than the requested count
(`startedOk` iff `count ≤ pool size`, so size `count` succeeds and size
`count − 1` fails), and on failure the rerun leaves both the session
state and the progress record exactly as they were. -/
theorem C5_insufficient_pool (questions : List Question) (st : SessionState) (p : Progress)
    (num_q : Nat) (systems : List String) (mode : String) (filters : List String)
    (idx : List Nat) (shuffles : List (List String)) (now : Int) :
    (startedOk
        (startSession (filteredPool questions systems filters p) num_q mode idx shuffles now)
        = true
      ↔ num_q ≤ (filteredPool questions systems filters p).length)
    ∧ ((filteredPool questions systems filters p).length < num_q →
        appStep questions (st, p) (Event.start num_q systems mode filters idx shuffles now)
          = (st, p)) := by
  constructor
  · by_cases hlt : (filteredPool questions systems filters p).length < num_q
    · simp only [startSession, startedOk, if_pos hlt]
      constructor
      · intro hfalse
        exact absurd hfalse (by simp)
      · intro hle
        omega
    · simp only [startSession, startedOk, if_neg hlt]
      constructor
      · intro _
        omega
      · intro _
        trivial
  · intro hlt
    cases hs : st.started with
    | true => simp [appStep, hs]
    | false => simp [appStep, hs, startSession, hlt]

/-- Concrete questions used as witness inputs. -/
def qW1 : Question :=
  { id := 11, system := "Cardio", question := "W1?", options := ["A", "B"], answer := "A",
    explanation := "E" }

def qW2 : Question :=
  { id := 12, system := "Cardio", question := "W2?", options := ["C", "D"], answer := "D",
    explanation := "E" }

def qW3 : Question :=
  { id := 13, system := "Renal", question := "W3?", options := ["E", "F"], answer := "E",
    explanation := "E" }

def qW4 : Question :=
  { id := 14, system := "Renal", question := "W4?", options := ["G", "H"], answer := "H",
    explanation := "E" }

def qW5 : Question :=
  { id := 15, system := "Renal", question := "W5?", options := ["I", "J"], answer := "I",
    explanation := "E" }

/-- The five-question witness catalog. -/
def poolW : List Question := [qW1, qW2, qW3, qW4, qW5]

/-- C5 witness: requesting 3 questions from a 2-question qualifying
pool changes nothing. -/
theorem C5_insufficient_pool_witness :
    appStep [qW1, qW2] (initState, defaultUserData) (Event.start 3 [] "test" [] [] [] 0)
      = (initState, defaultUserData) :=
  (C5_insufficient_pool [qW1, qW2] initState defaultUserData 3 [] "test" [] [] [] 0).2
    (by decide)

/-- C6: under the `random.sample` contract (distinct in-range indices,
exactly `count` of them, one shuffle outcome each) and unique catalog
ids, the session question list of a successful start has length exactly
`count`, repeats no question id, and every session question is drawn
from the qualifying pool (sharing id, text and answer with a pool
question). -/
theorem C6_sample_without_replacement (pool : List Question) (idx : List Nat)
    (shuffles : List (List String)) (num_q : Nat)
    (hnodup : idx.Nodup) (hlen : idx.length = num_q)
    (hbound : ∀ i ∈ idx, i < pool.length) (hslen : shuffles.length = num_q)
    (hids : (pool.map Question.id).Nodup) :
    (sessionQuestionsOf pool (idx.zip shuffles)).length = num_q
    ∧ ((sessionQuestionsOf pool (idx.zip shuffles)).map Question.id).Nodup
    ∧ ∀ sq ∈ sessionQuestionsOf pool (idx.zip shuffles), ∃ q ∈ pool,
        sq.id = q.id ∧ sq.question = q.question ∧ sq.answer = q.answer := by
  have hmapids : (sessionQuestionsOf pool (idx.zip shuffles)).map Question.id
      = idx.map (fun i => (pool.getD i defaultQ).id) := by
    unfold sessionQuestionsOf
    rw [List.map_map]
    have hcomp : (Question.id ∘ fun pr : Nat × List String =>
        { pool.getD pr.1 defaultQ with options := pr.2 })
        = (fun i => (pool.getD i defaultQ).id) ∘ Prod.fst := rfl
    rw [hcomp, ← List.map_map, List.map_fst_zip idx shuffles (by omega)]
  refine ⟨?_, ?_, ?_⟩
  · unfold sessionQuestionsOf
    rw [List.length_map, List.length_zip]
    omega
  · rw [hmapids]
    refine List.Nodup.map_on ?_ hnodup
    intro a ha b hb hab
    have ha2 := hbound a ha
    have hb2 := hbound b hb
    rw [List.getD_eq_getElem pool defaultQ ha2, List.getD_eq_getElem pool defaultQ hb2] at hab
    have hinj := List.nodup_iff_injective_get.mp hids
    have hma : a < (pool.map Question.id).length := by simpa using ha2
    have hmb : b < (pool.map Question.id).length := by simpa using hb2
    have heq : (pool.map Question.id).get ⟨a, hma⟩ = (pool.map Question.id).get ⟨b, hmb⟩ := by
      simp only [List.get_eq_getElem, List.getElem_map]
      exact hab
    have h2 := hinj heq
    simpa using h2
  · intro sq hsq
    rcases List.mem_map.mp hsq with ⟨pr, hpr, rfl⟩
    have hi : pr.1 ∈ idx := by
      rcases pr with ⟨i, sh⟩
      exact (List.of_mem_zip hpr).1
    have hib := hbound pr.1 hi
    refine ⟨pool.getD pr.1 defaultQ, ?_, rfl, rfl, rfl⟩
    rw [List.getD_eq_getElem pool defaultQ hib]
    exact List.getElem_mem hib

/-- C6 witness: drawing indices 4, 2, 0 from the five-question witness
catalog. -/
theorem C6_sample_without_replacement_witness :
    (sessionQuestionsOf poolW ([4, 2, 0].zip [["J", "I"], ["F", "E"], ["B", "A"]])).length = 3
    ∧ ((sessionQuestionsOf poolW
          ([4, 2, 0].zip [["J", "I"], ["F", "E"], ["B", "A"]])).map Question.id).Nodup
    ∧ ∀ sq ∈ sessionQuestionsOf poolW ([4, 2, 0].zip [["J", "I"], ["F", "E"], ["B", "A"]]),
        ∃ q ∈ poolW, sq.id = q.id ∧ sq.question = q.question ∧ sq.answer = q.answer :=
  C6_sample_without_replacement poolW [4, 2, 0] [["J", "I"], ["F", "E"], ["B", "A"]] 3
    (by decide) (by decide) (by decide) (by decide) (by decide)

/-- C7: a successful session start sets the time limit to `90 × count`
seconds exactly in test mode (and to null otherwise), and in any
started, non-over test session whose remaining time
`max(0, time_limit − elapsed)` is 0, the timer check transitions the
machine to Over regardless of sub-state (the quantified state is
arbitrary in `current_index`, `show_feedback` and `answers`). -/
theorem C7_time_limit_and_timeout (pool : List Question) (num_q : Nat) (mode : String)
    (idx : List Nat) (shuffles : List (List String)) (now : Int) (st2 : SessionState)
    (hok : startSession pool num_q mode idx shuffles now = Except.ok st2) :
    (st2.time_limit = if mode = "test" then some ((90 * num_q : Nat) : Int) else none)
    ∧ ∀ (questions : List Question) (st : SessionState) (p : Progress) (tl t0 tnow : Int),
        st.started = true → st.session_over = false → st.mode = "test" →
        st.time_limit = some tl → st.start_time = some t0 →
        max 0 (tl - (tnow - t0)) = 0 →
        appStep questions (st, p) (Event.timer tnow) = ({ st with session_over := true }, p) := by
  constructor
  · unfold startSession at hok
    by_cases hlt : pool.length < num_q
    · rw [if_pos hlt] at hok
      cases hok
    · rw [if_neg hlt] at hok
      cases hok
      rfl
  · intro questions st p tl t0 tnow hs ho hm htl ht0 hrem
    simp [appStep, hs, ho, hm, htl, ht0, hrem]

/-- The shuffle outcomes used in the witness session. -/
def shuffW : List (List String) :=
  [["B", "A"], ["D", "C"], ["F", "E"], ["H", "G"], ["J", "I"]]

/-- The session state produced by the witness start: 5 questions, test
mode, limit 450 seconds. -/
def stW : SessionState :=
  { started := true, start_time := some 0, current_index := 0,
    session_questions := sessionQuestionsOf poolW ([0, 1, 2, 3, 4].zip shuffW),
    answers := fun _ => none, show_feedback := false, session_over := false,
    mode := "test", time_limit := some 450 }

/-- C7 witness: starting 5 questions in test mode yields limit 450, and
at elapsed 450 the timer event forces the session over. -/
theorem C7_time_limit_and_timeout_witness :
    (stW.time_limit = if ("test" : String) = "test" then some ((90 * 5 : Nat) : Int) else none)
    ∧ appStep [] (stW, defaultUserData) (Event.timer 450)
        = ({ stW with session_over := true }, defaultUserData) :=
  ⟨(C7_time_limit_and_timeout poolW 5 "test" [0, 1, 2, 3, 4] shuffW 0 stW rfl).1,
   (C7_time_limit_and_timeout poolW 5 "test" [0, 1, 2, 3, 4] shuffW 0 stW rfl).2
     [] stW defaultUserData 450 0 450 rfl rfl rfl rfl rfl (by decide)⟩

/-- A session-over state with zero session questions: the failing input
for the summary's division. -/
def overEmptyState : SessionState :=
  { initState with session_over := true }

/-- C8: evaluation of the summary at an Over state with zero session
questions.  `summaryPercent` is `none` — the model of the
`ZeroDivisionError` that `correct/total*100` (app.py line 228) raises —
instead of the claimed 0%: the source has no guard for `total = 0`
(score and total themselves are computed as the claim states, by
`summaryScore`/`summaryTotal`). -/
theorem C8_zero_total_division :
    overEmptyState.session_over = true
    ∧ summaryTotal overEmptyState = 0
    ∧ summaryScore overEmptyState = 0
    ∧ summaryPercent overEmptyState = none
    ∧ summaryPercent overEmptyState ≠ some 0 := by
  refine ⟨rfl, rfl, rfl, rfl, ?_⟩
  intro h
  exact Option.noConfusion h

/-- C9: every answer submission goes through the `st.radio` control
built from the current question's own `options` (app.py lines
246–252), so the submitted choice is always a member of those options;
consequently after any submit event the progress record is either
untouched (no active question view) or updated by `record` with a
choice drawn from the current question's options — a submission with an
answer outside the options cannot occur, and none ever mutates the
progress record. -/
theorem C9_choice_membership (questions : List Question) (st : SessionState) (p : Progress)
    (i : Nat) (tnow : Nat)
    (hi : i < (currentQuestion st).options.length) :
    (currentQuestion st).options.getD i "" ∈ (currentQuestion st).options
    ∧ ((appStep questions (st, p) (Event.submit i tnow)).2 = p
       ∨ ∃ c ∈ (currentQuestion st).options,
           (appStep questions (st, p) (Event.submit i tnow)).2
             = record p (currentQuestion st).id (decide (c = (currentQuestion st).answer))
                 tnow) := by
  have hmem : (currentQuestion st).options.getD i "" ∈ (currentQuestion st).options := by
    rw [List.getD_eq_getElem _ _ hi]
    exact List.getElem_mem hi
  refine ⟨hmem, ?_⟩
  cases hg : (st.started && !st.session_over) with
  | false =>
      left
      simp [appStep, hg]
  | true =>
      right
      refine ⟨(currentQuestion st).options.getD i "", hmem, ?_⟩
      simp [appStep, hg]

/-- C9 witness: submitting option index 0 of the first question of the
witness session. -/
theorem C9_choice_membership_witness :
    (currentQuestion stW).options.getD 0 "" ∈ (currentQuestion stW).options
    ∧ ((appStep [] (stW, defaultUserData) (Event.submit 0 3)).2 = defaultUserData
       ∨ ∃ c ∈ (currentQuestion stW).options,
           (appStep [] (stW, defaultUserData) (Event.submit 0 3)).2
             = record defaultUserData (currentQuestion stW).id
                 (decide (c = (currentQuestion stW).answer)) 3) :=
  C9_choice_membership [] stW defaultUserData 0 3 (by decide)

/-- Size invariant of reachable session states: any started or
finished session carries between 5 and 100 questions. -/
def SessInv (st : SessionState) : Prop :=
  st.started = true ∨ st.session_over = true →
    5 ≤ st.session_questions.length ∧ st.session_questions.length ≤ 100

theorem sessInv_init : SessInv initState := by
  intro h
  rcases h with h | h <;> simp [initState] at h

theorem sessInv_appStep (questions : List Question) (s : SessionState × Progress) (e : Event)
    (hv : validEvent e = true) (hinv : SessInv s.1) : SessInv (appStep questions s e).1 := by
  obtain ⟨st, p⟩ := s
  cases e with
  | start num_q systems mode filters idx shuffles now =>
      have hb : 5 ≤ num_q ∧ num_q ≤ 100 ∧ idx.length = num_q ∧ shuffles.length = num_q := by
        simpa [validEvent, Bool.and_eq_true, decide_eq_true_eq, and_assoc] using hv
      obtain ⟨h5, h100, hil, hsl⟩ := hb
      cases hs : st.started with
      | true => simpa [appStep, hs] using hinv
      | false =>
          cases hstart : startSession (filteredPool questions systems filters p)
              num_q mode idx shuffles now with
          | error msg => simpa [appStep, hs, hstart] using hinv
          | ok st2 =>
              have hq : st2.session_questions.length = num_q := by
                unfold startSession at hstart
                by_cases hlt : (filteredPool questions systems filters p).length < num_q
                · rw [if_pos hlt] at hstart
                  cases hstart
                · rw [if_neg hlt] at hstart
                  cases hstart
                  unfold sessionQuestionsOf
                  rw [List.length_map, List.length_zip]
                  omega
              have hred : (appStep questions (st, p)
                  (Event.start num_q systems mode filters idx shuffles now)).1 = st2 := by
                simp [appStep, hs, hstart]
              rw [hred]
              intro _
              constructor <;> omega
  | timer now =>
      cases hg : (st.started && !st.session_over) with
      | false => simpa [appStep, hg] using hinv
      | true =>
          have hst : st.started = true := by
            simp [Bool.and_eq_true] at hg
            exact hg.1
          by_cases hm : st.mode = "test"
          · cases htl : st.time_limit with
            | none => simpa [appStep, hg, hm, htl] using hinv
            | some tl =>
                cases ht0 : st.start_time with
                | none => simpa [appStep, hg, hm, htl, ht0] using hinv
                | some t0 =>
                    by_cases hrem : max 0 (tl - (now - t0)) = 0
                    · have hred : (appStep questions (st, p) (Event.timer now)).1
                          = { st with session_over := true } := by
                        simp [appStep, hg, hm, htl, ht0, hrem]
                      rw [hred]
                      intro _
                      exact hinv (Or.inl hst)
                    · simpa [appStep, hg, hm, htl, ht0, hrem] using hinv
          · simpa [appStep, hg, hm] using hinv
  | submit i tnow =>
      cases hg : (st.started && !st.session_over) with
      | false => simpa [appStep, hg] using hinv
      | true =>
          have hst : st.started = true := by
            simp [Bool.and_eq_true] at hg
            exact hg.1
          have h1 : (appStep questions (st, p) (Event.submit i tnow)).1.session_questions
              = st.session_questions := by
            simp [appStep, hg]
          intro _
          rw [h1]
          exact hinv (Or.inl hst)
  | setConfidence lvl =>
      cases hg : (st.started && !st.session_over && st.show_feedback) with
      | false => simpa [appStep, hg] using hinv
      | true => simpa [appStep, hg] using hinv
  | setMarked b =>
      cases hg : (st.started && !st.session_over && st.show_feedback) with
      | false => simpa [appStep, hg] using hinv
      | true => simpa [appStep, hg] using hinv
  | next =>
      cases hg : (st.started && !st.session_over && st.show_feedback) with
      | false => simpa [appStep, hg] using hinv
      | true =>
          have hst : st.started = true := by
            simp [Bool.and_eq_true] at hg
            exact hg.1.1
          have h1 : (appStep questions (st, p) Event.next).1.session_questions
              = st.session_questions := by
            simp [appStep, hg]
          intro _
          rw [h1]
          exact hinv (Or.inl hst)
  | newSession =>
      cases hg : st.session_over with
      | false => simpa [appStep, hg] using hinv
      | true =>
          have hred : (appStep questions (st, p) Event.newSession).1
              = { st with started := false } := by
            simp [appStep, hg]
          rw [hred]
          intro _
          exact hinv (Or.inr hg)
  | logout =>
      exact sessInv_init

theorem sessInv_foldl (questions : List Question) (es : List Event)
    (s : SessionState × Progress)
    (hv : ∀ e ∈ es, validEvent e = true) (hinv : SessInv s.1) :
    SessInv ((es.foldl (appStep questions) s).1) := by
  induction es generalizing s with
  | nil => exact hinv
  | cons e rest ih =>
      exact ih (appStep questions s e) (fun x hx => hv x (List.mem_cons_of_mem e hx))
        (sessInv_appStep questions s e (hv e (List.mem_cons_self e rest)) hinv)

/-- C10: over any event sequence respecting the slider bound ([5, 100])
and the `random.sample`/`random.shuffle` contracts, every reachable
Over state carries between 5 and 100 session questions, so the summary
total is at least 5 and the percentage computation has a nonzero
denominator (it returns a value instead of dividing by zero). -/
theorem C10_session_size_bounds (questions : List Question) (es : List Event) (p0 : Progress)
    (hv : ∀ e ∈ es, validEvent e = true) :
    (es.foldl (appStep questions) (initState, p0)).1.session_over = true →
      5 ≤ summaryTotal (es.foldl (appStep questions) (initState, p0)).1
      ∧ summaryTotal (es.foldl (appStep questions) (initState, p0)).1 ≤ 100
      ∧ (summaryPercent (es.foldl (appStep questions) (initState, p0)).1).isSome = true := by
  intro hover
  have h := sessInv_foldl questions es (initState, p0) hv sessInv_init (Or.inr hover)
  have htot : summaryTotal (es.foldl (appStep questions) (initState, p0)).1
      = (es.foldl (appStep questions) (initState, p0)).1.session_questions.length := rfl
  refine ⟨by omega, by omega, ?_⟩
  unfold summaryPercent
  rw [if_neg (by omega)]
  rfl

/-- The witness event sequence: a successful 5-question test-mode start
followed by the timer expiring. -/
def eventsW : List Event :=
  [Event.start 5 [] "test" [] [0, 1, 2, 3, 4] shuffW 0, Event.timer 450]

/-- C10 witness: the theorem applied to the witness run, which really
reaches an Over state. -/
theorem C10_session_size_bounds_witness :
    5 ≤ summaryTotal (eventsW.foldl (appStep poolW) (initState, defaultUserData)).1
    ∧ summaryTotal (eventsW.foldl (appStep poolW) (initState, defaultUserData)).1 ≤ 100
    ∧ (summaryPercent
        (eventsW.foldl (appStep poolW) (initState, defaultUserData)).1).isSome = true :=
  C10_session_size_bounds poolW eventsW defaultUserData (by decide) (by decide)

end QuizApp
